import Mathlib

/-!
Verification of the metrics subsystem of the FastAPI-Talks protocol
benchmarking harness (`metrics_exporter`: models, utils, storage, exporters).

Python floats are modelled as exact rationals (`ℚ`); the only
irrational-valued statistic, `np.std` (a square root), is modelled exactly
in `ℝ`.  Fallible Python code (exceptions raised by `datetime.fromisoformat`,
by naive/aware datetime subtraction, or by the SQLite UNIQUE constraint)
is modelled with `Except String`.
-/

unseal Rat.add Rat.mul Rat.sub Rat.inv

deriving instance DecidableEq for Except

/-! ### Statistics Calculator (`metrics_exporter/utils.py`, `calculate_statistics`)

`numpy` operations are modelled one by one: `np.sort` (ascending sort used
internally by `np.percentile` and `np.median`), `np.min`/`np.max` (fold of
the binary min/max over the array), `np.mean`, `np.std` (population standard
deviation, the square root of the mean squared deviation) and
`np.percentile` (the default linear interpolation method).
-/

/-- Ascending sort of a sample list, as `np.sort` produces.  (Any comparison
sort of rationals yields the same list, so insertion sort is used as the
model; sorted output is unique on a linear order.) -/
def pySort (l : List ℚ) : List ℚ := List.insertionSort (· ≤ ·) l

/-- `np.min` over a non-empty array: fold of binary `min`.  The value on an
empty list is irrelevant (`calculate_statistics` guards the empty case). -/
def np_min : List ℚ → ℚ
  | [] => 0
  | x :: xs => xs.foldl min x

/-- `np.max` over a non-empty array: fold of binary `max`. -/
def np_max : List ℚ → ℚ
  | [] => 0
  | x :: xs => xs.foldl max x

/-- `np.mean`: arithmetic mean. -/
def np_mean (l : List ℚ) : ℚ := l.sum / l.length

/-- The mean squared deviation from the mean; `np.std` is its square root
(population standard deviation, the `numpy` default). -/
def np_var (l : List ℚ) : ℚ := (l.map (fun x => (x - np_mean l) ^ 2)).sum / l.length

/-- Ceiling of a rational, written through `Rat.floor` so that it evaluates
by reduction (the `Int.ceil` of the `FloorRing` instance is proved equal to
it in `ratCeil_eq_ceil` below). -/
def ratCeil (q : ℚ) : ℤ := -(Rat.floor (-q))

/-- Linear-interpolation percentile over an already sorted array, the default
method of `np.percentile`: position `idx = p / 100 * (n - 1)`, result
`a[⌊idx⌋] + (idx - ⌊idx⌋) * (a[⌈idx⌉] - a[⌊idx⌋])`. -/
def percentileOfSorted (a : List ℚ) (p : ℚ) : ℚ :=
  let idx : ℚ := p / 100 * ((a.length : ℚ) - 1)
  let lo := a.getD (idx.floor).toNat 0
  let hi := a.getD (ratCeil idx).toNat 0
  lo + (idx - (idx.floor : ℚ)) * (hi - lo)

/-- `np.percentile(a, p)` with the default linear interpolation: sorts the
array, then interpolates. -/
def np_percentile (l : List ℚ) (p : ℚ) : ℚ := percentileOfSorted (pySort l) p

/-- `np.median`: middle element of the sorted array, or the average of the
two middle elements for even length. -/
def np_median (l : List ℚ) : ℚ :=
  let a := pySort l
  let n := a.length
  if n % 2 = 1 then a.getD (n / 2) 0
  else (a.getD (n / 2 - 1) 0 + a.getD (n / 2) 0) / 2

/-- `Rat.floor` agrees with the mathematical floor. -/
theorem ratFloor_eq_floor (q : ℚ) : q.floor = ⌊q⌋ := by
  rw [Rat.floor_def', ← Rat.floor_def]

/-- `ratCeil` agrees with the mathematical ceiling. -/
theorem ratCeil_eq_ceil (q : ℚ) : ratCeil q = ⌈q⌉ := by
  rw [ratCeil, ratFloor_eq_floor, Int.floor_neg, neg_neg]

/-- `BenchmarkStats` (`metrics_exporter/models.py`): the statistical digest of
one run.  `p50`/`p95`/`p99` are `Optional[float]` defaulting to `None`. -/
structure BenchmarkStats where
  mean : ℚ
  median : ℚ
  std_dev : ℝ
  min : ℚ
  max : ℚ
  count : ℕ
  p50 : Option ℚ
  p95 : Option ℚ
  p99 : Option ℚ

/-- `calculate_statistics` (`metrics_exporter/utils.py`, lines 12-32): empty
input returns the all-zero record with percentiles unset; otherwise every
field is computed from the sample by the `numpy` models above. -/
noncomputable def calculate_statistics (latencies : List ℚ) : BenchmarkStats :=
  if latencies = [] then
    { mean := 0, median := 0, std_dev := 0, min := 0, max := 0, count := 0,
      p50 := none, p95 := none, p99 := none }
  else
    { mean := np_mean latencies
      median := np_median latencies
      std_dev := Real.sqrt ((np_var latencies : ℚ) : ℝ)
      min := np_min latencies
      max := np_max latencies
      count := latencies.length
      p50 := some (np_percentile latencies 50)
      p95 := some (np_percentile latencies 95)
      p99 := some (np_percentile latencies 99) }

/-! #### Order facts about the linear-interpolation percentile -/

/-- `getD` with an in-range index is plain indexing. -/
theorem getD_eq_elem (a : List ℚ) (i : ℕ) (h : i < a.length) : a.getD i 0 = a[i] := by
  rw [List.getD_eq_getElem?_getD, List.getElem?_eq_getElem h]
  rfl

/-- Indexing a sorted list is monotone. -/
theorem sorted_getD_mono (a : List ℚ) (hs : List.Sorted (· ≤ ·) a) {i j : ℕ}
    (hij : i ≤ j) (hj : j < a.length) : a.getD i 0 ≤ a.getD j 0 := by
  have hi : i < a.length := Nat.lt_of_le_of_lt hij hj
  rw [getD_eq_elem a i hi, getD_eq_elem a j hj]
  rcases Nat.eq_or_lt_of_le hij with h | h
  · subst h
    exact le_refl _
  · exact List.pairwise_iff_getElem.mp hs i j hi hj h

/-- The interpolation applied at an arbitrary in-range real position; the
percentile is this map applied at `p / 100 * (n - 1)`. -/
def interpAt (a : List ℚ) (t : ℚ) : ℚ :=
  a.getD (t.floor).toNat 0 +
    (t - (t.floor : ℚ)) * (a.getD (ratCeil t).toNat 0 - a.getD (t.floor).toNat 0)

theorem percentileOfSorted_eq_interpAt (a : List ℚ) (p : ℚ) :
    percentileOfSorted a p = interpAt a (p / 100 * ((a.length : ℚ) - 1)) := rfl

theorem interpAt_indices (a : List ℚ) (t : ℚ) (h0 : 0 ≤ t) (h1 : t ≤ (a.length : ℚ) - 1) :
    (t.floor).toNat ≤ (ratCeil t).toNat ∧ (ratCeil t).toNat < a.length := by
  rw [ratFloor_eq_floor, ratCeil_eq_ceil]
  have hn : (1 : ℚ) ≤ (a.length : ℚ) := by linarith
  have hn1 : 1 ≤ a.length := by exact_mod_cast hn
  have hf0 : 0 ≤ ⌊t⌋ := Int.floor_nonneg.mpr h0
  have hfc : ⌊t⌋ ≤ ⌈t⌉ := Int.floor_le_ceil t
  have hc1 : ⌈t⌉ ≤ (a.length : ℤ) - 1 := by
    rw [Int.ceil_le]
    push_cast
    exact h1
  constructor
  · omega
  · omega

theorem interpAt_bounds (a : List ℚ) (hs : List.Sorted (· ≤ ·) a) (t : ℚ)
    (h0 : 0 ≤ t) (h1 : t ≤ (a.length : ℚ) - 1) :
    a.getD (t.floor).toNat 0 ≤ interpAt a t ∧ interpAt a t ≤ a.getD (ratCeil t).toNat 0 := by
  obtain ⟨hij, hj⟩ := interpAt_indices a t h0 h1
  have hlohi : a.getD (t.floor).toNat 0 ≤ a.getD (ratCeil t).toNat 0 :=
    sorted_getD_mono a hs hij hj
  have hfr0 : 0 ≤ t - ((t.floor : ℤ) : ℚ) := by
    rw [ratFloor_eq_floor]
    have := Int.floor_le t
    linarith
  have hfr1 : t - ((t.floor : ℤ) : ℚ) ≤ 1 := by
    rw [ratFloor_eq_floor]
    have := Int.sub_one_lt_floor t
    linarith
  constructor
  · have := mul_nonneg hfr0 (sub_nonneg.mpr hlohi)
    rw [interpAt]
    linarith
  · have := mul_le_of_le_one_left (sub_nonneg.mpr hlohi) hfr1
    rw [interpAt]
    linarith

theorem interpAt_mono (a : List ℚ) (hs : List.Sorted (· ≤ ·) a) (x y : ℚ)
    (hx : 0 ≤ x) (hy : y ≤ (a.length : ℚ) - 1) (hxy : x ≤ y) :
    interpAt a x ≤ interpAt a y := by
  have hx1 : x ≤ (a.length : ℚ) - 1 := le_trans hxy hy
  have hy0 : 0 ≤ y := le_trans hx hxy
  by_cases hc : (⌈x⌉ : ℤ) ≤ ⌊y⌋
  · have h1 : interpAt a x ≤ a.getD (ratCeil x).toNat 0 := (interpAt_bounds a hs x hx hx1).2
    have h2 : a.getD (⌊y⌋).toNat 0 ≤ interpAt a y := by
      have := (interpAt_bounds a hs y hy0 hy).1
      rwa [ratFloor_eq_floor] at this
    have h3 : a.getD (ratCeil x).toNat 0 ≤ a.getD (⌊y⌋).toNat 0 := by
      have hj : (⌊y⌋).toNat < a.length := by
        have h4 := (interpAt_indices a y hy0 hy).2
        have h5 := (interpAt_indices a y hy0 hy).1
        rw [ratFloor_eq_floor] at h5
        omega
      refine sorted_getD_mono a hs ?_ hj
      rw [ratCeil_eq_ceil]
      exact Int.toNat_le_toNat hc
    linarith
  · -- both positions interpolate inside the same cell of the sorted array
    have hff : ⌊x⌋ ≤ ⌊y⌋ := Int.floor_le_floor hxy
    have hcx1 : ⌈x⌉ ≤ ⌊x⌋ + 1 := Int.ceil_le_floor_add_one x
    have hfx : ⌊x⌋ ≤ ⌈x⌉ := Int.floor_le_ceil x
    have hfy : ⌊y⌋ ≤ ⌈y⌉ := Int.floor_le_ceil y
    have hcy1 : ⌈y⌉ ≤ ⌊y⌋ + 1 := Int.ceil_le_floor_add_one y
    have heq : ⌊y⌋ = ⌊x⌋ := by omega
    by_cases hyint : ⌈y⌉ = ⌊y⌋
    · -- y is an integer equal to the common floor, hence x = y
      have hy2 : y ≤ ((⌊y⌋ : ℤ) : ℚ) := by
        have := Int.le_ceil y
        rw [hyint] at this
        exact_mod_cast this
      have hx2 : ((⌊x⌋ : ℤ) : ℚ) ≤ x := Int.floor_le x
      have : x = y := by
        rw [heq] at hy2
        exact le_antisymm hxy (le_trans hy2 hx2)
      rw [this]
    · have hcyx : ⌈y⌉ = ⌈x⌉ := by omega
      have hlohi : a.getD (x.floor).toNat 0 ≤ a.getD (ratCeil x).toNat 0 := by
        obtain ⟨hij, hj⟩ := interpAt_indices a x hx hx1
        exact sorted_getD_mono a hs hij hj
      rw [interpAt, interpAt, ratFloor_eq_floor, ratCeil_eq_ceil, ratFloor_eq_floor,
        ratCeil_eq_ceil, heq, hcyx]
      have key : (x - (⌊x⌋ : ℚ)) * (a.getD (⌈x⌉).toNat 0 - a.getD (⌊x⌋).toNat 0) ≤
          (y - (⌊x⌋ : ℚ)) * (a.getD (⌈x⌉).toNat 0 - a.getD (⌊x⌋).toNat 0) := by
        have hlohi2 : a.getD (⌊x⌋).toNat 0 ≤ a.getD (⌈x⌉).toNat 0 := by
          rw [ratFloor_eq_floor, ratCeil_eq_ceil] at hlohi
          exact hlohi
        exact mul_le_mul_of_nonneg_right (by linarith) (by linarith)
      linarith

theorem foldl_min_le_init (l : List ℚ) (init : ℚ) : l.foldl min init ≤ init := by
  induction l generalizing init with
  | nil => exact le_refl _
  | cons a l ih => exact le_trans (ih (min init a)) (min_le_left _ _)

theorem foldl_min_le_of_mem (l : List ℚ) : ∀ (init : ℚ) {x : ℚ}, x ∈ l →
    l.foldl min init ≤ x := by
  induction l with
  | nil =>
    intro init x hx
    cases hx
  | cons a l ih =>
    intro init x hx
    rcases List.mem_cons.mp hx with h | h
    · subst h
      exact le_trans (foldl_min_le_init l _) (min_le_right _ _)
    · exact ih _ h

theorem np_min_le_of_mem {l : List ℚ} {x : ℚ} (hx : x ∈ l) : np_min l ≤ x := by
  cases l with
  | nil => cases hx
  | cons a l =>
    rcases List.mem_cons.mp hx with h | h
    · subst h
      exact foldl_min_le_init l _
    · exact foldl_min_le_of_mem l _ h

theorem init_le_foldl_max (l : List ℚ) (init : ℚ) : init ≤ l.foldl max init := by
  induction l generalizing init with
  | nil => exact le_refl _
  | cons a l ih => exact le_trans (le_max_left _ _) (ih (max init a))

theorem mem_le_foldl_max (l : List ℚ) : ∀ (init : ℚ) {x : ℚ}, x ∈ l →
    x ≤ l.foldl max init := by
  induction l with
  | nil =>
    intro init x hx
    cases hx
  | cons a l ih =>
    intro init x hx
    rcases List.mem_cons.mp hx with h | h
    · subst h
      exact le_trans (le_max_right _ _) (init_le_foldl_max l _)
    · exact ih _ h

theorem le_np_max_of_mem {l : List ℚ} {x : ℚ} (hx : x ∈ l) : x ≤ np_max l := by
  cases l with
  | nil => cases hx
  | cons a l =>
    rcases List.mem_cons.mp hx with h | h
    · subst h
      exact init_le_foldl_max l _
    · exact mem_le_foldl_max l _ h

theorem pySort_sorted (l : List ℚ) : List.Sorted (· ≤ ·) (pySort l) :=
  List.sorted_insertionSort (· ≤ ·) l

theorem pySort_perm (l : List ℚ) : (pySort l).Perm l :=
  List.perm_insertionSort (· ≤ ·) l

theorem interpIdx_nonneg (l : List ℚ) (hne : l ≠ []) (p : ℚ) (hp0 : 0 ≤ p) :
    0 ≤ p / 100 * (((pySort l).length : ℚ) - 1) := by
  have hl1 : 1 ≤ (pySort l).length := by
    rw [(pySort_perm l).length_eq]
    exact List.length_pos.mpr hne
  have : (1 : ℚ) ≤ ((pySort l).length : ℚ) := by exact_mod_cast hl1
  exact mul_nonneg (div_nonneg hp0 (by norm_num)) (by linarith)

theorem interpIdx_le (l : List ℚ) (p : ℚ) (_hp0 : 0 ≤ p) (hp1 : p ≤ 100) :
    p / 100 * (((pySort l).length : ℚ) - 1) ≤ ((pySort l).length : ℚ) - 1 ∨
      ((pySort l).length : ℚ) - 1 < 0 := by
  rcases le_or_lt 0 (((pySort l).length : ℚ) - 1) with h | h
  · left
    have h100 : p / 100 ≤ 1 := (div_le_one (by norm_num)).mpr hp1
    calc p / 100 * (((pySort l).length : ℚ) - 1)
        ≤ 1 * (((pySort l).length : ℚ) - 1) := mul_le_mul_of_nonneg_right h100 h
      _ = ((pySort l).length : ℚ) - 1 := one_mul _
  · right
    exact h

theorem np_min_le_np_percentile (l : List ℚ) (hne : l ≠ []) (p : ℚ)
    (hp0 : 0 ≤ p) (hp1 : p ≤ 100) : np_min l ≤ np_percentile l p := by
  have hs := pySort_sorted l
  have hlen : 1 ≤ (pySort l).length := by
    rw [(pySort_perm l).length_eq]
    exact List.length_pos.mpr hne
  have h0 := interpIdx_nonneg l hne p hp0
  have h1 : p / 100 * (((pySort l).length : ℚ) - 1) ≤ ((pySort l).length : ℚ) - 1 := by
    rcases interpIdx_le l p hp0 hp1 with h | h
    · exact h
    · exfalso
      have : (1 : ℚ) ≤ ((pySort l).length : ℚ) := by exact_mod_cast hlen
      linarith
  have hlow := (interpAt_bounds (pySort l) hs _ h0 h1).1
  have hidx := interpAt_indices (pySort l) _ h0 h1
  have hi : ((p / 100 * (((pySort l).length : ℚ) - 1)).floor).toNat < (pySort l).length :=
    Nat.lt_of_le_of_lt hidx.1 hidx.2
  have hmem : (pySort l).getD ((p / 100 * (((pySort l).length : ℚ) - 1)).floor).toNat 0 ∈ l := by
    rw [getD_eq_elem _ _ hi]
    exact (pySort_perm l).mem_iff.mp (List.getElem_mem hi)
  calc np_min l ≤ _ := np_min_le_of_mem hmem
    _ ≤ interpAt (pySort l) _ := hlow

theorem np_percentile_le_np_max (l : List ℚ) (hne : l ≠ []) (p : ℚ)
    (hp0 : 0 ≤ p) (hp1 : p ≤ 100) : np_percentile l p ≤ np_max l := by
  have hs := pySort_sorted l
  have hlen : 1 ≤ (pySort l).length := by
    rw [(pySort_perm l).length_eq]
    exact List.length_pos.mpr hne
  have h0 := interpIdx_nonneg l hne p hp0
  have h1 : p / 100 * (((pySort l).length : ℚ) - 1) ≤ ((pySort l).length : ℚ) - 1 := by
    rcases interpIdx_le l p hp0 hp1 with h | h
    · exact h
    · exfalso
      have : (1 : ℚ) ≤ ((pySort l).length : ℚ) := by exact_mod_cast hlen
      linarith
  have hup := (interpAt_bounds (pySort l) hs _ h0 h1).2
  have hidx := interpAt_indices (pySort l) _ h0 h1
  have hmem : (pySort l).getD (ratCeil (p / 100 * (((pySort l).length : ℚ) - 1))).toNat 0 ∈ l := by
    rw [getD_eq_elem _ _ hidx.2]
    exact (pySort_perm l).mem_iff.mp (List.getElem_mem hidx.2)
  calc np_percentile l p ≤ _ := hup
    _ ≤ np_max l := le_np_max_of_mem hmem

theorem np_percentile_mono (l : List ℚ) (hne : l ≠ []) (p q : ℚ)
    (hp0 : 0 ≤ p) (hq1 : q ≤ 100) (hpq : p ≤ q) :
    np_percentile l p ≤ np_percentile l q := by
  have hs := pySort_sorted l
  have hlen : 1 ≤ (pySort l).length := by
    rw [(pySort_perm l).length_eq]
    exact List.length_pos.mpr hne
  have hcast : (1 : ℚ) ≤ ((pySort l).length : ℚ) := by exact_mod_cast hlen
  have hq0 : 0 ≤ q := le_trans hp0 hpq
  have hx := interpIdx_nonneg l hne p hp0
  have hy : q / 100 * (((pySort l).length : ℚ) - 1) ≤ ((pySort l).length : ℚ) - 1 := by
    rcases interpIdx_le l q hq0 hq1 with h | h
    · exact h
    · exfalso
      linarith
  have hxy : p / 100 * (((pySort l).length : ℚ) - 1) ≤
      q / 100 * (((pySort l).length : ℚ) - 1) := by
    have hdiv : p / 100 ≤ q / 100 := by linarith
    exact mul_le_mul_of_nonneg_right hdiv (by linarith)
  exact interpAt_mono (pySort l) hs _ _ hx hy hxy

/-- C3: for every non-empty sample sequence, the summary statistics satisfy
`min ≤ p50 ≤ p95 ≤ p99 ≤ max`, with all three percentiles actually set. -/
theorem calculate_statistics_percentile_order (l : List ℚ) (h : l ≠ []) :
    ∃ a b c, (calculate_statistics l).p50 = some a ∧ (calculate_statistics l).p95 = some b ∧
      (calculate_statistics l).p99 = some c ∧ (calculate_statistics l).min ≤ a ∧
      a ≤ b ∧ b ≤ c ∧ c ≤ (calculate_statistics l).max := by
  refine ⟨np_percentile l 50, np_percentile l 95, np_percentile l 99, ?_, ?_, ?_, ?_, ?_, ?_, ?_⟩
  · simp [calculate_statistics, h]
  · simp [calculate_statistics, h]
  · simp [calculate_statistics, h]
  · simp only [calculate_statistics, if_neg h]
    exact np_min_le_np_percentile l h 50 (by norm_num) (by norm_num)
  · exact np_percentile_mono l h 50 95 (by norm_num) (by norm_num) (by norm_num)
  · exact np_percentile_mono l h 95 99 (by norm_num) (by norm_num) (by norm_num)
  · simp only [calculate_statistics, if_neg h]
    exact np_percentile_le_np_max l h 99 (by norm_num) (by norm_num)

/-- Witness for C3 at the concrete sample `[2, 1]`. -/
theorem calculate_statistics_percentile_order_witness :
    ([2, 1] : List ℚ) ≠ [] ∧
      (∃ a b c, (calculate_statistics [2, 1]).p50 = some a ∧
        (calculate_statistics [2, 1]).p95 = some b ∧
        (calculate_statistics [2, 1]).p99 = some c ∧ (calculate_statistics [2, 1]).min ≤ a ∧
        a ≤ b ∧ b ≤ c ∧ c ≤ (calculate_statistics [2, 1]).max) :=
  ⟨by decide, calculate_statistics_percentile_order [2, 1] (by decide)⟩

/-- The percentile formula exactly as the specification words it: for sorted
array `a` of length `n` and percentile `p`, position `idx = p / 100 * (n - 1)`,
result `a[floor(idx)] + (idx - floor(idx)) * (a[ceil(idx)] - a[floor(idx)])`. -/
def specPercentile (samples : List ℚ) (p : ℚ) : ℚ :=
  let a := pySort samples
  let n := a.length
  let idx : ℚ := p / 100 * ((n : ℚ) - 1)
  a.getD (idx.floor).toNat 0 +
    (idx - (idx.floor : ℚ)) * (a.getD (ratCeil idx).toNat 0 - a.getD (idx.floor).toNat 0)

/-- C4: on a non-empty sample, the `p50`, `p95` and `p99` fields computed by
`calculate_statistics` equal the linear-interpolation percentile formula of
the specification at 50, 95 and 99. -/
theorem calculate_statistics_percentiles_linear_interpolation (l : List ℚ) (h : l ≠ []) :
    (calculate_statistics l).p50 = some (specPercentile l 50) ∧
      (calculate_statistics l).p95 = some (specPercentile l 95) ∧
      (calculate_statistics l).p99 = some (specPercentile l 99) := by
  simp only [calculate_statistics, if_neg h]
  exact ⟨rfl, rfl, rfl⟩

/-- Witness for C4 at the concrete sample `[1, 2, 3]`. -/
theorem calculate_statistics_percentiles_linear_interpolation_witness :
    ([1, 2, 3] : List ℚ) ≠ [] ∧
      ((calculate_statistics [1, 2, 3]).p50 = some (specPercentile [1, 2, 3] 50) ∧
        (calculate_statistics [1, 2, 3]).p95 = some (specPercentile [1, 2, 3] 95) ∧
        (calculate_statistics [1, 2, 3]).p99 = some (specPercentile [1, 2, 3] 99)) :=
  ⟨by decide, calculate_statistics_percentiles_linear_interpolation [1, 2, 3] (by decide)⟩

/-- C5: the Statistics Calculator on the empty sequence returns count 0, all
numeric fields 0 and unset percentiles (it is a total function: no error). -/
theorem calculate_statistics_empty :
    calculate_statistics [] =
      { mean := 0, median := 0, std_dev := 0, min := 0, max := 0, count := 0,
        p50 := none, p95 := none, p99 := none } := rfl

/-! ### Python datetime model

The legacy parsers call `datetime.fromisoformat` (after replacing a literal
`Z` suffix with `+00:00`) and subtract the two datetimes.  `fromisoformat`
is modelled for the string shapes this repository produces and consumes:
`YYYY-MM-DD`, optionally followed by a one-character separator and
`HH[:MM[:SS[.fff|.ffffff]]]`, optionally followed by a fixed offset
`+HH:MM` or `-HH:MM` (as on CPython 3.10, the fractional part must have
exactly 3 or 6 digits and anything else is a `ValueError`).  Subtraction of
a naive and an aware datetime raises `TypeError` in Python, which the model
propagates as an error. -/

/-- A parsed Python `datetime`: calendar fields plus an optional fixed UTC
offset in minutes (`none` models a naive datetime). -/
structure PyDateTime where
  year : ℕ
  month : ℕ
  day : ℕ
  hour : ℕ
  minute : ℕ
  second : ℕ
  microsecond : ℕ
  tzOffsetMinutes : Option ℤ
deriving DecidableEq

def isLeapYear (y : ℕ) : Bool := y % 4 = 0 && (y % 100 ≠ 0 || y % 400 = 0)

def daysInMonth (y m : ℕ) : ℕ :=
  if m = 2 then (if isLeapYear y then 29 else 28)
  else if m = 4 ∨ m = 6 ∨ m = 9 ∨ m = 11 then 30
  else 31

/-- Days of year `y` that precede month `m` (1-based). -/
def daysBeforeMonth (y m : ℕ) : ℕ :=
  (List.range (m - 1)).foldl (fun acc i => acc + daysInMonth y (i + 1)) 0

/-- Proleptic Gregorian ordinal of a date, as Python `date.toordinal`:
January 1 of year 1 is day 1. -/
def toOrdinal (y m d : ℕ) : ℕ :=
  365 * (y - 1) + (y - 1) / 4 - (y - 1) / 100 + (y - 1) / 400 + daysBeforeMonth y m + d

/-- Seconds since the epoch of year 1, with the UTC offset subtracted, so
that the difference of two values is `timedelta.total_seconds()`. -/
def epochSeconds (d : PyDateTime) : ℚ :=
  (((toOrdinal d.year d.month d.day : ℤ) * 86400 + d.hour * 3600 + d.minute * 60 + d.second
    - (d.tzOffsetMinutes.getD 0) * 60 : ℤ) : ℚ) + (d.microsecond : ℚ) / 1000000

/-- The range checks performed by the `datetime` constructor. -/
def validDateTime (d : PyDateTime) : Bool :=
  1 ≤ d.year && d.year ≤ 9999 && 1 ≤ d.month && d.month ≤ 12 &&
  1 ≤ d.day && d.day ≤ daysInMonth d.year d.month &&
  d.hour ≤ 23 && d.minute ≤ 59 && d.second ≤ 59 && d.microsecond ≤ 999999

def digitVal? (c : Char) : Option ℕ := if c.isDigit then some (c.toNat - 48) else none

def digitVal (c : Char) : ℕ := c.toNat - 48

def digits2 : List Char → Option (ℕ × List Char)
  | c1 :: c2 :: rest => do
    let d1 ← digitVal? c1
    let d2 ← digitVal? c2
    some (10 * d1 + d2, rest)
  | _ => none

def digits4 : List Char → Option (ℕ × List Char)
  | c1 :: c2 :: c3 :: c4 :: rest => do
    let d1 ← digitVal? c1
    let d2 ← digitVal? c2
    let d3 ← digitVal? c3
    let d4 ← digitVal? c4
    some (1000 * d1 + 100 * d2 + 10 * d3 + d4, rest)
  | _ => none

def expectChar (c : Char) : List Char → Option (List Char)
  | x :: rest => if x = c then some rest else none
  | [] => none

def digitsToNat (ds : List ℕ) : ℕ := ds.foldl (fun a d => 10 * a + d) 0

/-- Time-of-day part `HH[:MM[:SS[.fff|.ffffff]]]`; returns hour, minute,
second, microsecond and the remaining characters (a possible offset). -/
def parseTime (cs : List Char) : Option (ℕ × ℕ × ℕ × ℕ × List Char) := do
  let (h, cs1) ← digits2 cs
  match cs1 with
  | ':' :: cs2 => do
    let (mi, cs3) ← digits2 cs2
    match cs3 with
    | ':' :: cs4 => do
      let (s, cs5) ← digits2 cs4
      match cs5 with
      | '.' :: cs6 =>
        let ds := cs6.takeWhile (fun c => c.isDigit)
        let rest := cs6.dropWhile (fun c => c.isDigit)
        if ds.length = 3 then some (h, mi, s, 1000 * digitsToNat (ds.map digitVal), rest)
        else if ds.length = 6 then some (h, mi, s, digitsToNat (ds.map digitVal), rest)
        else none
      | _ => some (h, mi, s, 0, cs5)
    | _ => some (h, mi, 0, 0, cs3)
  | _ => some (h, 0, 0, 0, cs1)

/-- Trailing fixed-offset part: empty (naive) or `+HH:MM` / `-HH:MM`. -/
def parseOffset : List Char → Option (Option ℤ)
  | [] => some none
  | '+' :: cs => do
    let (oh, cs1) ← digits2 cs
    let cs2 ← expectChar ':' cs1
    let (om, cs3) ← digits2 cs2
    if cs3 = [] ∧ oh ≤ 23 ∧ om ≤ 59 then some (some ((oh : ℤ) * 60 + om)) else none
  | '-' :: cs => do
    let (oh, cs1) ← digits2 cs
    let cs2 ← expectChar ':' cs1
    let (om, cs3) ← digits2 cs2
    if cs3 = [] ∧ oh ≤ 23 ∧ om ≤ 59 then some (some (-((oh : ℤ) * 60 + om))) else none
  | _ => none

/-- Model of `datetime.fromisoformat` for the shapes described above;
`none` models the `ValueError` raised on any other string. -/
def fromisoformat (s : String) : Option PyDateTime := do
  let cs := s.data
  let (y, cs1) ← digits4 cs
  let cs2 ← expectChar '-' cs1
  let (mo, cs3) ← digits2 cs2
  let cs4 ← expectChar '-' cs3
  let (dy, cs5) ← digits2 cs4
  let (h, mi, s2, micro, tz) ←
    match cs5 with
    | [] => some (0, 0, 0, 0, (none : Option ℤ))
    | _sep :: cs6 => do
      let (h, mi, s2, micro, cs7) ← parseTime cs6
      let tz ← parseOffset cs7
      some (h, mi, s2, micro, tz)
  let dt : PyDateTime := ⟨y, mo, dy, h, mi, s2, micro, tz⟩
  if validDateTime dt then some dt else none

/-- `datetime.fromisoformat` as the parsers call it: raises `ValueError` on a
malformed string. -/
def pyFromIso (s : String) : Except String PyDateTime :=
  match fromisoformat s with
  | some d => Except.ok d
  | none => Except.error ("ValueError: Invalid isoformat string: " ++ s)

/-- `(b - a).total_seconds()`: a `TypeError` when exactly one operand is
timezone-aware, the elapsed seconds otherwise. -/
def pyDtSub (b a : PyDateTime) : Except String ℚ :=
  match b.tzOffsetMinutes, a.tzOffsetMinutes with
  | some _, none => Except.error "TypeError: cannot subtract offset-naive and offset-aware datetimes"
  | none, some _ => Except.error "TypeError: cannot subtract offset-naive and offset-aware datetimes"
  | _, _ => Except.ok (epochSeconds b - epochSeconds a)

def pad2 (n : ℕ) : String := if n < 10 then "0" ++ toString n else toString n

def pad4 (n : ℕ) : String :=
  if n < 10 then "000" ++ toString n
  else if n < 100 then "00" ++ toString n
  else if n < 1000 then "0" ++ toString n
  else toString n

def pad6 (n : ℕ) : String :=
  if n < 10 then "00000" ++ toString n
  else if n < 100 then "0000" ++ toString n
  else if n < 1000 then "000" ++ toString n
  else if n < 10000 then "00" ++ toString n
  else if n < 100000 then "0" ++ toString n
  else toString n

/-- `datetime.isoformat()`. -/
def pyIsoformat (d : PyDateTime) : String :=
  pad4 d.year ++ "-" ++ pad2 d.month ++ "-" ++ pad2 d.day ++ "T" ++ pad2 d.hour ++ ":" ++
    pad2 d.minute ++ ":" ++ pad2 d.second ++
    (if d.microsecond = 0 then "" else "." ++ pad6 d.microsecond) ++
    (match d.tzOffsetMinutes with
     | none => ""
     | some off =>
       (if off < 0 then "-" else "+") ++ pad2 (off.natAbs / 60) ++ ":" ++ pad2 (off.natAbs % 60))

/-- `datetime.strftime("%Y%m%d_%H%M%S")`, used to build `run_id` values. -/
def strftimeCompact (d : PyDateTime) : String :=
  pad4 d.year ++ pad2 d.month ++ pad2 d.day ++ "_" ++ pad2 d.hour ++ pad2 d.minute ++ pad2 d.second

/-! ### Data model (`metrics_exporter/models.py`) -/

/-- `MetricData`: one request/response latency sample. -/
structure MetricData where
  request_id : ℕ
  request_timestamp : String
  response_timestamp : String
  latency_seconds : ℚ
deriving DecidableEq

/-- `BenchmarkResult`: one complete benchmark run.  `metadata` is an open
string-keyed bag (only string values occur in this repository). -/
structure BenchmarkResult where
  id : Option ℕ
  run_id : String
  protocol : String
  timestamp : PyDateTime
  metrics : List MetricData
  stats : Option BenchmarkStats
  metadata : List (String × String)

/-! ### Legacy Format Normalizer (`metrics_exporter/utils.py`)

The five list-shaped parsers (`parse_legacy_grpc`, `parse_legacy_rest`,
`parse_legacy_graphql`, `parse_legacy_avro`, `parse_legacy_cbor`) run the
same loop and differ only in the two dict keys and the protocol labels, so
the loop is modelled once (`legacyLoop`) and each parser instantiates it.
A raw record is a JSON object, modelled as an association list;
`dict.get(key, "")` returns the empty string both for a missing key and for
an empty value, exactly as the Python code conflates the two. -/

/-- `ts.replace("Z", "+00:00")`: every occurrence of the character `Z` is
replaced by `+00:00` (modelled character by character). -/
def replaceZchars : List Char → List Char
  | [] => []
  | c :: rest => (if c = 'Z' then ['+', '0', '0', ':', '0', '0'] else [c]) ++ replaceZchars rest

def pyReplaceZ (s : String) : String := String.mk (replaceZchars s.data)

/-- `item.get(key, "")`. -/
def pyGetStr (item : List (String × String)) (key : String) : String :=
  match item.find? (fun kv => kv.1 == key) with
  | some kv => kv.2
  | none => ""

/-- The body of one loop iteration: skip (`ok none`) when either timestamp
field is missing or empty; otherwise parse both fields (after the
`Z -> +00:00` replacement) and subtract — any `ValueError`/`TypeError`
escapes and aborts the whole parse. -/
def recordStep (reqKey respKey : String) (item : List (String × String)) :
    Except String (Option (String × String × ℚ)) :=
  let req_ts := pyGetStr item reqKey
  let resp_ts := pyGetStr item respKey
  if req_ts ≠ "" ∧ resp_ts ≠ "" then do
    let req_dt ← pyFromIso (pyReplaceZ req_ts)
    let resp_dt ← pyFromIso (pyReplaceZ resp_ts)
    let latency ← pyDtSub resp_dt req_dt
    Except.ok (some (req_ts, resp_ts, latency))
  else Except.ok none

/-- `for idx, item in enumerate(data)` with `metrics.append(...)`: the
position index is consumed by every record, emitted or skipped. -/
def legacyLoop (reqKey respKey : String) : ℕ → List (List (String × String)) →
    Except String (List MetricData)
  | _, [] => Except.ok []
  | idx, item :: rest =>
    match recordStep reqKey respKey item with
    | Except.error e => Except.error e
    | Except.ok none => legacyLoop reqKey respKey (idx + 1) rest
    | Except.ok (some (req_ts, resp_ts, latency)) =>
      match legacyLoop reqKey respKey (idx + 1) rest with
      | Except.error e => Except.error e
      | Except.ok tail => Except.ok (⟨idx, req_ts, resp_ts, latency⟩ :: tail)

/-- The common tail of every parser: statistics over the emitted latencies, a
`run_id` derived from the current UTC time (passed here as the explicit
argument `now`), empty metadata. -/
noncomputable def mkLegacyResult (tag protocol : String) (metrics : List MetricData)
    (now : PyDateTime) : BenchmarkResult :=
  { id := none
    run_id := tag ++ "_" ++ strftimeCompact now
    protocol := protocol
    timestamp := now
    metrics := metrics
    stats := some (calculate_statistics (metrics.map (fun m => m.latency_seconds)))
    metadata := [] }

noncomputable def parse_legacy_grpc (data : List (List (String × String)))
    (now : PyDateTime) : Except String BenchmarkResult :=
  match legacyLoop "grpc_requester_timestamp" "grpc_responder_timestamp" 0 data with
  | Except.error e => Except.error e
  | Except.ok metrics => Except.ok (mkLegacyResult "grpc" "gRPC" metrics now)

noncomputable def parse_legacy_rest (data : List (List (String × String)))
    (now : PyDateTime) : Except String BenchmarkResult :=
  match legacyLoop "request_timestamp" "response_timestamp" 0 data with
  | Except.error e => Except.error e
  | Except.ok metrics => Except.ok (mkLegacyResult "rest" "REST" metrics now)

noncomputable def parse_legacy_graphql (data : List (List (String × String)))
    (now : PyDateTime) : Except String BenchmarkResult :=
  match legacyLoop "requestTimestamp" "responseTimestamp" 0 data with
  | Except.error e => Except.error e
  | Except.ok metrics => Except.ok (mkLegacyResult "graphql" "GraphQL" metrics now)

noncomputable def parse_legacy_avro (data : List (List (String × String)))
    (now : PyDateTime) : Except String BenchmarkResult :=
  match legacyLoop "request_timestamp" "response_timestamp" 0 data with
  | Except.error e => Except.error e
  | Except.ok metrics => Except.ok (mkLegacyResult "avro" "AVRO" metrics now)

noncomputable def parse_legacy_cbor (data : List (List (String × String)))
    (now : PyDateTime) : Except String BenchmarkResult :=
  match legacyLoop "request_timestamp" "response_timestamp" 0 data with
  | Except.error e => Except.error e
  | Except.ok metrics => Except.ok (mkLegacyResult "cbor" "CBOR" metrics now)

/-- The Socket.IO legacy payload `{"request_ts": str, "respond_ts": [str]}`
after `data.get("request_ts", "")` and `data.get("respond_ts", [])`. -/
structure SioPayload where
  request_ts : String
  respond_ts : List String
deriving DecidableEq

/-- The latency computation of one Socket.IO pairing step. -/
def sioPairResult (request_ts resp_ts : String) : Except String ℚ := do
  let req_dt ← pyFromIso (pyReplaceZ request_ts)
  let resp_dt ← pyFromIso (pyReplaceZ resp_ts)
  pyDtSub resp_dt req_dt

/-- `for idx, resp_ts in enumerate(response_timestamps)`: the shared request
timestamp is paired with every element; empty elements are skipped but
consume their index. -/
def sioLoop (request_ts : String) : ℕ → List String → Except String (List MetricData)
  | _, [] => Except.ok []
  | idx, resp_ts :: rest =>
    if request_ts ≠ "" ∧ resp_ts ≠ "" then
      match sioPairResult request_ts resp_ts with
      | Except.error e => Except.error e
      | Except.ok latency =>
        match sioLoop request_ts (idx + 1) rest with
        | Except.error e => Except.error e
        | Except.ok tail => Except.ok (⟨idx, request_ts, resp_ts, latency⟩ :: tail)
    else sioLoop request_ts (idx + 1) rest

noncomputable def parse_legacy_socketio (data : SioPayload) (now : PyDateTime) :
    Except String BenchmarkResult :=
  match sioLoop data.request_ts 0 data.respond_ts with
  | Except.error e => Except.error e
  | Except.ok metrics => Except.ok (mkLegacyResult "socketio" "Socket.IO" metrics now)

/-! #### Observers used to state the normalizer claims -/

/-- Whether one record's step raises no exception (it is skipped or emits a
metric). -/
def stepOk (reqKey respKey : String) (item : List (String × String)) : Bool :=
  match recordStep reqKey respKey item with
  | Except.ok _ => true
  | Except.error _ => false

/-- Whether one record's step emits a metric. -/
def stepEmits (reqKey respKey : String) (item : List (String × String)) : Bool :=
  match recordStep reqKey respKey item with
  | Except.ok (some _) => true
  | _ => false

/-- Whether one Socket.IO pairing emits a metric without an exception. -/
def sioStepOk (request_ts resp_ts : String) : Bool :=
  (request_ts ≠ "" && resp_ts ≠ "") &&
    (match sioPairResult request_ts resp_ts with
     | Except.ok _ => true
     | Except.error _ => false)

/-- The latency a successful Socket.IO pairing emits. -/
def sioLat (request_ts resp_ts : String) : ℚ :=
  match sioPairResult request_ts resp_ts with
  | Except.ok q => q
  | Except.error _ => 0

/-- The metric list the Socket.IO loop produces on a mixed response list:
one metric per non-empty element (carrying the element's position as
`request_id`), nothing for an empty element, which still consumes its
position. -/
def sioExpectedMixed (request_ts : String) : ℕ → List String → List MetricData
  | _, [] => []
  | idx, resp_ts :: rest =>
    if resp_ts ≠ "" then
      ⟨idx, request_ts, resp_ts, sioLat request_ts resp_ts⟩ ::
        sioExpectedMixed request_ts (idx + 1) rest
    else sioExpectedMixed request_ts (idx + 1) rest

/-! #### Behaviour of the list-shaped loop -/

theorem legacyLoop_ok_of_all (reqKey respKey : String) (data : List (List (String × String))) :
    ∀ idx, (∀ it ∈ data, stepOk reqKey respKey it = true) →
      ∃ ms, legacyLoop reqKey respKey idx data = Except.ok ms ∧
        ms.length = data.countP (fun it => stepEmits reqKey respKey it) := by
  induction data with
  | nil =>
    intro idx _
    exact ⟨[], rfl, rfl⟩
  | cons it rest ih =>
    intro idx h
    have hit : stepOk reqKey respKey it = true := h it (List.mem_cons_self it rest)
    have hrest : ∀ x ∈ rest, stepOk reqKey respKey x = true :=
      fun x hx => h x (List.mem_cons_of_mem _ hx)
    obtain ⟨ms, hms, hlen⟩ := ih (idx + 1) hrest
    cases hstep : recordStep reqKey respKey it with
    | error e =>
      exfalso
      unfold stepOk at hit
      rw [hstep] at hit
      exact Bool.false_ne_true hit
    | ok o =>
      cases o with
      | none =>
        refine ⟨ms, ?_, ?_⟩
        · simp only [legacyLoop, hstep]
          exact hms
        · rw [hlen]
          have : stepEmits reqKey respKey it = false := by
            unfold stepEmits
            rw [hstep]
          simp [List.countP_cons, this]
      | some v =>
        obtain ⟨a, b, q⟩ := v
        refine ⟨⟨idx, a, b, q⟩ :: ms, ?_, ?_⟩
        · simp only [legacyLoop, hstep, hms]
        · have : stepEmits reqKey respKey it = true := by
            unfold stepEmits
            rw [hstep]
          simp [List.countP_cons, this, hlen]

theorem legacyLoop_error_of_exists (reqKey respKey : String)
    (data : List (List (String × String))) :
    ∀ idx, (∃ it ∈ data, stepOk reqKey respKey it = false) →
      ∃ e, legacyLoop reqKey respKey idx data = Except.error e := by
  induction data with
  | nil =>
    intro idx h
    obtain ⟨it, hmem, _⟩ := h
    cases hmem
  | cons it rest ih =>
    intro idx h
    cases hstep : recordStep reqKey respKey it with
    | error e =>
      refine ⟨e, ?_⟩
      simp only [legacyLoop, hstep]
    | ok o =>
      have hrest : ∃ x ∈ rest, stepOk reqKey respKey x = false := by
        obtain ⟨x, hmem, hx⟩ := h
        rcases List.mem_cons.mp hmem with h2 | h2
        · exfalso
          subst h2
          unfold stepOk at hx
          rw [hstep] at hx
          simp at hx
        · exact ⟨x, h2, hx⟩
      obtain ⟨e, he⟩ := ih (idx + 1) hrest
      cases o with
      | none =>
        refine ⟨e, ?_⟩
        simp only [legacyLoop, hstep]
        exact he
      | some v =>
        obtain ⟨a, b, q⟩ := v
        refine ⟨e, ?_⟩
        simp only [legacyLoop, hstep, he]

/-- A fixed instant standing for `datetime.utcnow()` in concrete runs. -/
def now0 : PyDateTime := ⟨2024, 1, 1, 0, 0, 0, 0, none⟩

/-- A REST-shaped input whose second record carries a present, non-empty but
malformed response timestamp. -/
def malformedRestData : List (List (String × String)) :=
  [[("request_timestamp", "2024-01-01T00:00:00"), ("response_timestamp", "2024-01-01T00:00:01")],
   [("request_timestamp", "2024-01-01T00:00:05"), ("response_timestamp", "not-a-timestamp")]]

/-- C2 counterexample: on a list-shaped input whose second record has a
present, non-empty but malformed response timestamp, `parse_legacy_rest`
raises (an `Except.error`), so no Run covering the remaining records is
returned — the record is not skipped individually. -/
theorem parse_legacy_rest_malformed_counterexample :
    parse_legacy_rest malformedRestData now0 =
      Except.error "ValueError: Invalid isoformat string: not-a-timestamp" := rfl

/-- C2 amended: in a list-shaped legacy input, a record whose timestamp
fields are missing or empty is skipped individually — the parse still
succeeds and returns a Run with one Metric per emitting record; but a record
whose timestamp handling raises (present, non-empty, malformed timestamp, or
mixed naive/aware operands) aborts the whole parse with an error.  Stated
for the REST and the GraphQL shapes. -/
theorem legacy_parse_skip_empty_and_malformed_fatal
    (data : List (List (String × String))) (now : PyDateTime) :
    ((∀ it ∈ data, stepOk "request_timestamp" "response_timestamp" it = true) →
      ∃ run, parse_legacy_rest data now = Except.ok run ∧
        run.metrics.length =
          data.countP (fun it => stepEmits "request_timestamp" "response_timestamp" it))
    ∧ ((∃ it ∈ data, stepOk "request_timestamp" "response_timestamp" it = false) →
      ∃ e, parse_legacy_rest data now = Except.error e)
    ∧ ((∀ it ∈ data, stepOk "requestTimestamp" "responseTimestamp" it = true) →
      ∃ run, parse_legacy_graphql data now = Except.ok run ∧
        run.metrics.length =
          data.countP (fun it => stepEmits "requestTimestamp" "responseTimestamp" it))
    ∧ ((∃ it ∈ data, stepOk "requestTimestamp" "responseTimestamp" it = false) →
      ∃ e, parse_legacy_graphql data now = Except.error e) := by
  refine ⟨?_, ?_, ?_, ?_⟩
  · intro h
    obtain ⟨ms, hms, hlen⟩ := legacyLoop_ok_of_all _ _ data 0 h
    refine ⟨mkLegacyResult "rest" "REST" ms now, ?_, hlen⟩
    simp only [parse_legacy_rest, hms]
  · intro h
    obtain ⟨e, he⟩ := legacyLoop_error_of_exists _ _ data 0 h
    refine ⟨e, ?_⟩
    simp only [parse_legacy_rest, he]
  · intro h
    obtain ⟨ms, hms, hlen⟩ := legacyLoop_ok_of_all _ _ data 0 h
    refine ⟨mkLegacyResult "graphql" "GraphQL" ms now, ?_, hlen⟩
    simp only [parse_legacy_graphql, hms]
  · intro h
    obtain ⟨e, he⟩ := legacyLoop_error_of_exists _ _ data 0 h
    refine ⟨e, ?_⟩
    simp only [parse_legacy_graphql, he]

/-- A REST-shaped input with one emitting record and one record with an
empty response timestamp. -/
def skipRestData : List (List (String × String)) :=
  [[("request_timestamp", "2024-01-01T00:00:00"), ("response_timestamp", "2024-01-01T00:00:01")],
   [("request_timestamp", "2024-01-01T00:00:02"), ("response_timestamp", "")]]

/-- Witness for the amended C2 at a concrete input: the empty-field record is
skipped and the parse succeeds with one metric. -/
theorem legacy_parse_skip_empty_and_malformed_fatal_witness :
    (∀ it ∈ skipRestData, stepOk "request_timestamp" "response_timestamp" it = true) ∧
      (∃ run, parse_legacy_rest skipRestData now0 = Except.ok run ∧
        run.metrics.length =
          skipRestData.countP
            (fun it => stepEmits "request_timestamp" "response_timestamp" it)) :=
  ⟨by decide,
    (legacy_parse_skip_empty_and_malformed_fatal skipRestData now0).1 (by decide)⟩

/-- C6: a GraphQL-shaped input of three records where record 1 has an empty
`responseTimestamp` and records 0 and 2 emit: the parse succeeds and the Run
has exactly the two Metrics with `request_id` 0 and 2 — the skipped record
emits nothing but still consumes its positional index. -/
theorem parse_legacy_graphql_skips_empty_record (r0 r1 r2 : List (String × String))
    (now : PyDateTime)
    (h0 : stepEmits "requestTimestamp" "responseTimestamp" r0 = true)
    (h1 : pyGetStr r1 "responseTimestamp" = "")
    (h2 : stepEmits "requestTimestamp" "responseTimestamp" r2 = true) :
    ∃ run, parse_legacy_graphql [r0, r1, r2] now = Except.ok run ∧
      run.metrics.map (fun m => m.request_id) = [0, 2] ∧ run.metrics.length = 2 := by
  have e0 : ∃ v, recordStep "requestTimestamp" "responseTimestamp" r0 = Except.ok (some v) := by
    unfold stepEmits at h0
    cases hs : recordStep "requestTimestamp" "responseTimestamp" r0 with
    | error e =>
      rw [hs] at h0
      simp at h0
    | ok o =>
      cases o with
      | none =>
        rw [hs] at h0
        simp at h0
      | some v => exact ⟨v, rfl⟩
  have e2 : ∃ v, recordStep "requestTimestamp" "responseTimestamp" r2 = Except.ok (some v) := by
    unfold stepEmits at h2
    cases hs : recordStep "requestTimestamp" "responseTimestamp" r2 with
    | error e =>
      rw [hs] at h2
      simp at h2
    | ok o =>
      cases o with
      | none =>
        rw [hs] at h2
        simp at h2
      | some v => exact ⟨v, rfl⟩
  obtain ⟨⟨a0, b0, q0⟩, e0⟩ := e0
  obtain ⟨⟨a2, b2, q2⟩, e2⟩ := e2
  have e1 : recordStep "requestTimestamp" "responseTimestamp" r1 = Except.ok none := by
    unfold recordStep
    rw [h1]
    simp
  have hloop : legacyLoop "requestTimestamp" "responseTimestamp" 0 [r0, r1, r2] =
      Except.ok [⟨0, a0, b0, q0⟩, ⟨2, a2, b2, q2⟩] := by
    simp only [legacyLoop, e0, e1, e2]
  refine ⟨mkLegacyResult "graphql" "GraphQL" [⟨0, a0, b0, q0⟩, ⟨2, a2, b2, q2⟩] now, ?_, rfl, rfl⟩
  simp only [parse_legacy_graphql, hloop]

/-- A GraphQL-shaped record with a fixed request timestamp and the given
response timestamp. -/
def graphqlRecord (resp : String) : List (String × String) :=
  [("requestTimestamp", "2024-01-01T00:00:00"), ("responseTimestamp", resp)]

/-- Witness for C6 at a concrete three-record input. -/
theorem parse_legacy_graphql_skips_empty_record_witness :
    (stepEmits "requestTimestamp" "responseTimestamp"
        (graphqlRecord "2024-01-01T00:00:01") = true ∧
      pyGetStr (graphqlRecord "") "responseTimestamp" = "" ∧
      stepEmits "requestTimestamp" "responseTimestamp"
        (graphqlRecord "2024-01-01T00:00:02") = true) ∧
    (∃ run, parse_legacy_graphql
        [graphqlRecord "2024-01-01T00:00:01", graphqlRecord "",
          graphqlRecord "2024-01-01T00:00:02"] now0 = Except.ok run ∧
      run.metrics.map (fun m => m.request_id) = [0, 2] ∧ run.metrics.length = 2) :=
  ⟨⟨by decide, by decide, by decide⟩,
    parse_legacy_graphql_skips_empty_record _ _ _ now0 (by decide) (by decide) (by decide)⟩

/-! #### Socket.IO pairing (C7) -/

theorem sioLoop_mixed (req : String) (resps : List String) :
    ∀ idx, (∀ ts ∈ resps, ts = "" ∨ sioStepOk req ts = true) →
      sioLoop req idx resps = Except.ok (sioExpectedMixed req idx resps) := by
  induction resps with
  | nil =>
    intro idx _
    rfl
  | cons ts rest ih =>
    intro idx h
    have hts := h ts (List.mem_cons_self ts rest)
    have hrest : ∀ x ∈ rest, x = "" ∨ sioStepOk req x = true :=
      fun x hx => h x (List.mem_cons_of_mem _ hx)
    have hl : sioLoop req idx (ts :: rest) =
        if req ≠ "" ∧ ts ≠ "" then
          match sioPairResult req ts with
          | Except.error e => Except.error e
          | Except.ok latency =>
            match sioLoop req (idx + 1) rest with
            | Except.error e => Except.error e
            | Except.ok tail =>
              Except.ok (⟨idx, req, ts, latency⟩ :: tail)
        else sioLoop req (idx + 1) rest := rfl
    have hexp : sioExpectedMixed req idx (ts :: rest) =
        if ts ≠ "" then
          ⟨idx, req, ts, sioLat req ts⟩ :: sioExpectedMixed req (idx + 1) rest
        else sioExpectedMixed req (idx + 1) rest := rfl
    rcases hts with hts | hts
    · -- empty element: skipped, the index is still consumed
      subst hts
      have hcond : ¬(req ≠ "" ∧ ("" : String) ≠ "") := fun hc => hc.2 rfl
      have hcond2 : ¬(("" : String) ≠ "") := fun hc => hc rfl
      rw [hl, if_neg hcond, ih (idx + 1) hrest, hexp, if_neg hcond2]
    · -- emitting element
      unfold sioStepOk at hts
      rw [Bool.and_eq_true, Bool.and_eq_true] at hts
      obtain ⟨⟨hr, ht⟩, hpr⟩ := hts
      have hcond : req ≠ "" ∧ ts ≠ "" := ⟨of_decide_eq_true hr, of_decide_eq_true ht⟩
      cases hq : sioPairResult req ts with
      | error e =>
        rw [hq] at hpr
        simp at hpr
      | ok q =>
        have hlat : sioLat req ts = q := by
          unfold sioLat
          rw [hq]
        rw [hl, if_pos hcond, hq, ih (idx + 1) hrest, hexp, if_pos hcond.2, hlat]

theorem sioExpectedMixed_eq (req : String) (resps : List String) :
    ∀ idx, sioExpectedMixed req idx resps =
      ((List.enumFrom idx resps).filter (fun p => p.2 ≠ "")).map
        (fun p => ⟨p.1, req, p.2, sioLat req p.2⟩) := by
  induction resps with
  | nil =>
    intro idx
    rfl
  | cons ts rest ih =>
    intro idx
    by_cases hts : ts = ""
    · subst hts
      simp only [sioExpectedMixed, List.enumFrom, List.filter_cons, ih (idx + 1)]
      simp
    · simp only [sioExpectedMixed, List.enumFrom, List.filter_cons, ih (idx + 1)]
      simp [hts]

theorem enumFrom_filter_ne_length (resps : List String) :
    ∀ idx, ((List.enumFrom idx resps).filter (fun p => p.2 ≠ "")).length =
      (resps.filter (fun ts => ts ≠ "")).length := by
  induction resps with
  | nil =>
    intro idx
    rfl
  | cons ts rest ih =>
    intro idx
    by_cases hts : ts = ""
    · subst hts
      simp only [List.enumFrom, List.filter_cons]
      simp
      simpa using ih (idx + 1)
    · simp only [List.enumFrom, List.filter_cons]
      simp [hts]
      simpa using ih (idx + 1)

/-- C7 amended: whenever every response element is either empty or pairs
without an exception, the Socket.IO parser succeeds and produces exactly one
Metric per NON-EMPTY response element, carrying that element's position in
the response list as `request_id` (an empty element emits no Metric but
still consumes its position), the shared request timestamp, the element as
response timestamp and the elapsed seconds as latency. -/
theorem parse_legacy_socketio_pairing (req : String) (resps : List String) (now : PyDateTime)
    (h : ∀ ts ∈ resps, ts = "" ∨ sioStepOk req ts = true) :
    ∃ run, parse_legacy_socketio ⟨req, resps⟩ now = Except.ok run ∧
      run.metrics =
        ((resps.enum.filter (fun p => p.2 ≠ "")).map
          (fun p => ⟨p.1, req, p.2, sioLat req p.2⟩)) ∧
      run.metrics.length = (resps.filter (fun ts => ts ≠ "")).length := by
  have hloop := sioLoop_mixed req resps 0 h
  refine ⟨mkLegacyResult "socketio" "Socket.IO" (sioExpectedMixed req 0 resps) now, ?_, ?_, ?_⟩
  · simp only [parse_legacy_socketio, hloop]
  · show sioExpectedMixed req 0 resps = _
    rw [sioExpectedMixed_eq req resps 0]
    rfl
  · show (sioExpectedMixed req 0 resps).length = _
    rw [sioExpectedMixed_eq req resps 0, List.length_map, enumFrom_filter_ne_length resps 0]

/-- A Socket.IO payload with two response elements of which the first is the
empty string. -/
def sioEmptyElementPayload : SioPayload :=
  ⟨"2024-01-01T00:00:00", ["", "2024-01-01T00:00:03"]⟩

/-- C7 counterexample: with two response elements of which one is empty, the
parse emits only ONE Metric — not one per response timestamp as the claim
universally states — and the surviving Metric has `request_id` 1: the
skipped element consumed position 0. -/
theorem parse_legacy_socketio_empty_element_counterexample :
    (parse_legacy_socketio sioEmptyElementPayload now0).map (fun r => r.metrics) =
      Except.ok [⟨1, "2024-01-01T00:00:00", "2024-01-01T00:00:03", 3⟩] := rfl

def c7resps : List String := ["2024-01-01T00:00:01", "2024-01-01T00:00:03"]

def c7mixed : List String := ["2024-01-01T00:00:01", "", "2024-01-01T00:00:03"]

/-- Witness for the amended C7, at the concrete scenario of the claim (two
valid elements: metrics with `request_id` 0 and 1 and latencies 1 and 3
seconds) and at a mixed list (empty middle element: metrics with
`request_id` 0 and 2 — the skipped element consumed its position). -/
theorem parse_legacy_socketio_pairing_witness :
    ((∀ ts ∈ c7resps, ts = "" ∨ sioStepOk "2024-01-01T00:00:00" ts = true) ∧
      (∃ run, parse_legacy_socketio ⟨"2024-01-01T00:00:00", c7resps⟩ now0 = Except.ok run ∧
        run.metrics =
          ((c7resps.enum.filter (fun p => p.2 ≠ "")).map
            (fun p => ⟨p.1, "2024-01-01T00:00:00", p.2, sioLat "2024-01-01T00:00:00" p.2⟩)) ∧
        run.metrics.length = (c7resps.filter (fun ts => ts ≠ "")).length) ∧
      ((c7resps.enum.filter (fun p => p.2 ≠ "")).map
        (fun p => (⟨p.1, "2024-01-01T00:00:00", p.2,
          sioLat "2024-01-01T00:00:00" p.2⟩ : MetricData))) =
        [⟨0, "2024-01-01T00:00:00", "2024-01-01T00:00:01", 1⟩,
         ⟨1, "2024-01-01T00:00:00", "2024-01-01T00:00:03", 3⟩]) ∧
    ((∀ ts ∈ c7mixed, ts = "" ∨ sioStepOk "2024-01-01T00:00:00" ts = true) ∧
      (∃ run, parse_legacy_socketio ⟨"2024-01-01T00:00:00", c7mixed⟩ now0 = Except.ok run ∧
        run.metrics =
          ((c7mixed.enum.filter (fun p => p.2 ≠ "")).map
            (fun p => ⟨p.1, "2024-01-01T00:00:00", p.2, sioLat "2024-01-01T00:00:00" p.2⟩)) ∧
        run.metrics.length = (c7mixed.filter (fun ts => ts ≠ "")).length) ∧
      ((c7mixed.enum.filter (fun p => p.2 ≠ "")).map
        (fun p => (⟨p.1, "2024-01-01T00:00:00", p.2,
          sioLat "2024-01-01T00:00:00" p.2⟩ : MetricData))) =
        [⟨0, "2024-01-01T00:00:00", "2024-01-01T00:00:01", 1⟩,
         ⟨2, "2024-01-01T00:00:00", "2024-01-01T00:00:03", 3⟩]) :=
  ⟨⟨by decide, parse_legacy_socketio_pairing "2024-01-01T00:00:00" c7resps now0 (by decide),
      by decide⟩,
    ⟨by decide, parse_legacy_socketio_pairing "2024-01-01T00:00:00" c7mixed now0 (by decide),
      by decide⟩⟩

/-! ### Metrics Store (`metrics_exporter/storage.py`, `MetricsStorage`)

The two tables created by `_init_db` are modelled as row lists plus the two
`AUTOINCREMENT` counters.  `save_benchmark` runs inside one transaction: the
run-row `INSERT` fires the `UNIQUE` constraint on `run_id` before any metric
row is attempted, the raised `IntegrityError` skips `conn.commit()`, and
closing the connection rolls the transaction back — an error therefore
returns no new state (`storeAfterSave` gives the state a caller observes). -/

/-- One row of `benchmark_runs`: `stats_json` and `metadata_json` are stored
serialized; they are modelled structurally. -/
structure RunRow where
  id : ℕ
  run_id : String
  protocol : String
  timestamp : String
  stats_json : Option BenchmarkStats
  metadata_json : List (String × String)

/-- One row of the `metrics` table. -/
structure MetricRow where
  id : ℕ
  run_id : String
  request_id : ℕ
  request_timestamp : String
  response_timestamp : String
  latency_seconds : ℚ
deriving DecidableEq

structure StoreState where
  runs : List RunRow
  metrics : List MetricRow
  nextRunRowId : ℕ
  nextMetricRowId : ℕ

/-- `MetricsStorage.save_benchmark`. -/
def save_benchmark (st : StoreState) (result : BenchmarkResult) :
    Except String (ℕ × StoreState) :=
  if st.runs.any (fun row => row.run_id == result.run_id) then
    Except.error "UNIQUE constraint failed: benchmark_runs.run_id"
  else
    let runRow : RunRow :=
      ⟨st.nextRunRowId, result.run_id, result.protocol, pyIsoformat result.timestamp,
        result.stats, result.metadata⟩
    let metricRows : List MetricRow :=
      ((List.range result.metrics.length).zip result.metrics).map
        (fun p => ⟨st.nextMetricRowId + p.1, result.run_id, p.2.request_id,
          p.2.request_timestamp, p.2.response_timestamp, p.2.latency_seconds⟩)
    Except.ok (st.nextRunRowId,
      ⟨st.runs ++ [runRow], st.metrics ++ metricRows,
        st.nextRunRowId + 1, st.nextMetricRowId + result.metrics.length⟩)

/-- The store a caller observes after `save_benchmark`: the new state on
success, the unchanged state on a rolled-back failure. -/
def storeAfterSave (st : StoreState) (result : BenchmarkResult) : StoreState :=
  match save_benchmark st result with
  | Except.ok p => p.2
  | Except.error _ => st

/-- `MetricsStorage.delete_run`: first `DELETE FROM metrics`, then
`DELETE FROM benchmark_runs` whose rowcount becomes the returned boolean. -/
def delete_run (st : StoreState) (run_id : String) : Bool × StoreState :=
  let metrics2 := st.metrics.filter (fun m => !(m.run_id == run_id))
  let rowcount := st.runs.countP (fun row => row.run_id == run_id)
  let runs2 := st.runs.filter (fun row => !(row.run_id == run_id))
  (decide (rowcount > 0), ⟨runs2, metrics2, st.nextRunRowId, st.nextMetricRowId⟩)

/-- The result of `MetricsStorage.get_stats`; `protocols` maps each protocol
to its `GROUP BY` count (protocols not present count 0, i.e. no row). -/
structure DbStats where
  total_runs : ℕ
  total_metrics : ℕ
  protocols : String → ℕ

/-- `MetricsStorage.get_stats`. -/
def get_stats (st : StoreState) : DbStats :=
  { total_runs := st.runs.length
    total_metrics := st.metrics.length
    protocols := fun p => (st.runs.filter (fun row => row.protocol == p)).length }

/-- One dictionary of the `get_all_runs` result list (metadata only). -/
structure RunSummary where
  id : ℕ
  run_id : String
  protocol : String
  timestamp : String
  stats : Option BenchmarkStats
  metadata : List (String × String)

/-- Python truthiness of the `protocol: Optional[str]` parameter: `None` and
the empty string are both falsy, so neither adds the `WHERE` clause. -/
def pyTruthyStr : Option String → Bool
  | none => false
  | some s => !(s == "")

/-- `MetricsStorage.get_all_runs`: optional protocol filter (guarded by
truthiness), `ORDER BY timestamp DESC` on the stored text timestamps, then
`LIMIT ? OFFSET ?`. -/
def get_all_runs (st : StoreState) (protocol : Option String) (limit offset : ℕ) :
    List RunSummary :=
  let rows :=
    if pyTruthyStr protocol then
      st.runs.filter (fun row => row.protocol == protocol.getD "")
    else st.runs
  let sorted := List.insertionSort (fun a b : RunRow => b.timestamp ≤ a.timestamp) rows
  ((sorted.drop offset).take limit).map
    (fun row => ⟨row.id, row.run_id, row.protocol, row.timestamp,
      row.stats_json, row.metadata_json⟩)

/-- Referential integrity of a store reachable through the API: every metric
row belongs to an existing run row (`save_benchmark` only inserts metric rows
together with their run row and `delete_run` removes both). -/
def storeWF (st : StoreState) : Bool :=
  st.metrics.all (fun m => st.runs.any (fun row => row.run_id == m.run_id))

/-- C1: saving a run whose `run_id` already exists fails with the uniqueness
violation and the store a caller observes is exactly the old one — every
previously stored row is untouched and no metric row of the rejected run is
inserted. -/
theorem save_benchmark_duplicate_run_id (st : StoreState) (result : BenchmarkResult)
    (h : ∃ row ∈ st.runs, row.run_id = result.run_id) :
    save_benchmark st result = Except.error "UNIQUE constraint failed: benchmark_runs.run_id" ∧
      storeAfterSave st result = st ∧ (storeAfterSave st result).runs = st.runs ∧
      (storeAfterSave st result).metrics = st.metrics := by
  have hb : st.runs.any (fun row => row.run_id == result.run_id) = true := by
    obtain ⟨row, hmem, hid⟩ := h
    exact List.any_eq_true.mpr ⟨row, hmem, beq_iff_eq.mpr hid⟩
  have hsave : save_benchmark st result =
      Except.error "UNIQUE constraint failed: benchmark_runs.run_id" := by
    unfold save_benchmark
    rw [hb]
    rfl
  have hafter : storeAfterSave st result = st := by
    unfold storeAfterSave
    rw [hsave]
  exact ⟨hsave, hafter, by rw [hafter], by rw [hafter]⟩

def witnessRunRow : RunRow :=
  ⟨1, "rest_20240101_000000", "REST", "2024-01-01T00:00:00", none, []⟩

def witnessStore : StoreState := ⟨[witnessRunRow], [], 2, 1⟩

def witnessResult : BenchmarkResult :=
  ⟨none, "rest_20240101_000000", "REST", now0, [], none, []⟩

/-- Witness for C1 at a concrete store holding a run with the same `run_id`. -/
theorem save_benchmark_duplicate_run_id_witness :
    (∃ row ∈ witnessStore.runs, row.run_id = witnessResult.run_id) ∧
      (save_benchmark witnessStore witnessResult =
          Except.error "UNIQUE constraint failed: benchmark_runs.run_id" ∧
        storeAfterSave witnessStore witnessResult = witnessStore ∧
        (storeAfterSave witnessStore witnessResult).runs = witnessStore.runs ∧
        (storeAfterSave witnessStore witnessResult).metrics = witnessStore.metrics) :=
  ⟨⟨witnessRunRow, List.mem_cons_self _ _, rfl⟩,
    save_benchmark_duplicate_run_id witnessStore witnessResult
      ⟨witnessRunRow, List.mem_cons_self _ _, rfl⟩⟩

/-- C9: `delete_run` on an absent `run_id` returns `false` and leaves the
store — hence `get_stats` (total runs, total metrics, per-protocol counts) —
unchanged; on a present `run_id` it returns `true` and removes exactly the
run row and all its metric rows. -/
theorem delete_run_correct (st : StoreState) (rid : String) (hwf : storeWF st = true) :
    ((∀ row ∈ st.runs, row.run_id ≠ rid) →
      delete_run st rid = (false, st) ∧ get_stats (delete_run st rid).2 = get_stats st)
    ∧ ((∃ row ∈ st.runs, row.run_id = rid) →
      (delete_run st rid).1 = true ∧
        (delete_run st rid).2.runs = st.runs.filter (fun row => !(row.run_id == rid)) ∧
        (delete_run st rid).2.metrics = st.metrics.filter (fun m => !(m.run_id == rid))) := by
  constructor
  · intro h
    have hcnt : st.runs.countP (fun row => row.run_id == rid) = 0 := by
      rw [List.countP_eq_zero]
      intro row hrow
      simpa using h row hrow
    have hruns : st.runs.filter (fun row => !(row.run_id == rid)) = st.runs := by
      rw [List.filter_eq_self]
      intro row hrow
      simpa using h row hrow
    have hmet : st.metrics.filter (fun m => !(m.run_id == rid)) = st.metrics := by
      rw [List.filter_eq_self]
      intro m hm
      have hany := List.all_eq_true.mp hwf m hm
      obtain ⟨row, hrow, hb⟩ := List.any_eq_true.mp hany
      have : m.run_id = row.run_id := (beq_iff_eq.mp hb).symm
      rw [this]
      simpa using h row hrow
    have hd : delete_run st rid = (false, st) := by
      unfold delete_run
      rw [hcnt, hruns, hmet]
      rfl
    exact ⟨hd, by rw [hd]⟩
  · intro h
    have hcnt : 0 < st.runs.countP (fun row => row.run_id == rid) := by
      rw [List.countP_pos_iff]
      obtain ⟨row, hrow, hid⟩ := h
      exact ⟨row, hrow, beq_iff_eq.mpr hid⟩
    refine ⟨?_, rfl, rfl⟩
    unfold delete_run
    simpa using hcnt

def witnessMetricRow : MetricRow :=
  ⟨1, "rest_20240101_000000", 0, "2024-01-01T00:00:00", "2024-01-01T00:00:01", 1⟩

def witnessStoreB : StoreState := ⟨[witnessRunRow], [witnessMetricRow], 2, 2⟩

/-- Witness for C9 at a concrete well-formed store and an absent `run_id`. -/
theorem delete_run_correct_witness :
    storeWF witnessStoreB = true ∧
      (((∀ row ∈ witnessStoreB.runs, row.run_id ≠ "no_such_run") →
        delete_run witnessStoreB "no_such_run" = (false, witnessStoreB) ∧
          get_stats (delete_run witnessStoreB "no_such_run").2 = get_stats witnessStoreB)
      ∧ ((∃ row ∈ witnessStoreB.runs, row.run_id = "no_such_run") →
        (delete_run witnessStoreB "no_such_run").1 = true ∧
          (delete_run witnessStoreB "no_such_run").2.runs =
            witnessStoreB.runs.filter (fun row => !(row.run_id == "no_such_run")) ∧
          (delete_run witnessStoreB "no_such_run").2.metrics =
            witnessStoreB.metrics.filter (fun m => !(m.run_id == "no_such_run")))) :=
  ⟨by decide, delete_run_correct witnessStoreB "no_such_run" (by decide)⟩

/-- C10: the empty-string protocol filter is falsy, so `get_all_runs` with
`protocol = ""` is identical to `get_all_runs` with no filter, for every
store, limit and offset. -/
theorem get_all_runs_empty_protocol_filter (st : StoreState) (limit offset : ℕ) :
    get_all_runs st (some "") limit offset = get_all_runs st none limit offset := rfl

/-! ### Excel exporter (`metrics_exporter/exporters.py`, `MetricsExporter.to_excel`)

The produced workbook is modelled as the ordered list of its sheets.  The
code adds a metrics sheet only under `if result.metrics:` (a run with zero
metrics contributes no sheet), builds `summary_data` only under
`if include_stats and results:` with one row per run passing
`if result.stats:`, and writes the `Summary` sheet only under
`if summary_data:`. -/

/-- One row of the `Summary` sheet — exactly the columns the code writes
(note: `p50` is not among them). -/
structure SummaryRow where
  protocol : String
  run_id : String
  timestamp : String
  mean : ℚ
  median : ℚ
  std_dev : ℝ
  min : ℚ
  max : ℚ
  count : ℕ
  p95 : Option ℚ
  p99 : Option ℚ

inductive SheetContent where
  | metricsSheet (rows : List MetricData)
  | summarySheet (rows : List SummaryRow)

def summaryRowOf (r : BenchmarkResult) (s : BenchmarkStats) : SummaryRow :=
  ⟨r.protocol, r.run_id, pyIsoformat r.timestamp, s.mean, s.median, s.std_dev,
    s.min, s.max, s.count, s.p95, s.p99⟩

/-- The sheets `MetricsExporter.to_excel` writes into the `pd.ExcelWriter`:
per-run metrics sheets named `f"{protocol}_metrics"[:31]`, then the
conditional `Summary` sheet. -/
def to_excel_sheets (results : List BenchmarkResult) (include_stats : Bool) :
    List (String × SheetContent) :=
  let metricSheets := results.filterMap (fun r =>
    if r.metrics.isEmpty then none
    else some ((r.protocol ++ "_metrics").take 31, SheetContent.metricsSheet r.metrics))
  let summary_data :=
    if include_stats && !results.isEmpty then
      results.filterMap (fun r => r.stats.map (fun s => summaryRowOf r s))
    else []
  metricSheets ++
    (if summary_data.isEmpty then []
     else [("Summary", SheetContent.summarySheet summary_data)])

/-- `MetricsExporter.to_excel`: the sheets above, then the save performed
when the `pd.ExcelWriter` context manager exits.  The openpyxl writer
removes the default sheet on creation, and saving a workbook into which no
sheet was ever written raises `IndexError: At least one sheet must be
visible` — so a batch producing zero sheets errors instead of writing an
empty artifact. -/
def to_excel (results : List BenchmarkResult) (include_stats : Bool) :
    Except String (List (String × SheetContent)) :=
  let sheets := to_excel_sheets results include_stats
  if sheets.isEmpty then Except.error "IndexError: At least one sheet must be visible"
  else Except.ok sheets

/-- All rows of summary sheets in a workbook. -/
def summarySheetRows (wb : List (String × SheetContent)) : List SummaryRow :=
  (wb.filterMap (fun s =>
    match s.2 with
    | SheetContent.summarySheet rows => some rows
    | SheetContent.metricsSheet _ => none)).flatten

/-- A benchmark run with zero metrics and no statistics. -/
def emptyRun : BenchmarkResult :=
  ⟨none, "rest_20240101_000000", "REST", now0, [], none, []⟩

/-- C8 counterexample: exporting one run with zero metrics (and no stats)
writes no sheet at all, so there is no `REST_metrics` sheet for the run and
the save step raises — not the claimed empty-but-valid artifact that never
errors. -/
theorem to_excel_zero_metrics_counterexample :
    to_excel [emptyRun] true =
      Except.error "IndexError: At least one sheet must be visible" := rfl

theorem filterMap_stats_length (results : List BenchmarkResult) :
    (results.filterMap (fun r => r.stats.map (fun s => summaryRowOf r s))).length =
      (results.filter (fun r => r.stats.isSome)).length := by
  induction results with
  | nil => rfl
  | cons r rest ih =>
    cases hs : r.stats with
    | none => simpa [List.filterMap_cons, List.filter_cons, hs] using ih
    | some s => simpa [List.filterMap_cons, List.filter_cons, hs] using ih

theorem summary_data_isEmpty (results : List BenchmarkResult) :
    (results.filterMap (fun r => r.stats.map (fun s => summaryRowOf r s))).isEmpty =
      !results.any (fun r => r.stats.isSome) := by
  induction results with
  | nil => rfl
  | cons r rest ih =>
    cases hs : r.stats with
    | none => simpa [List.filterMap_cons, hs] using ih
    | some s => simp [List.filterMap_cons, hs]

theorem filterMap_if_guard {α β : Type} (p : α → Bool) (f : α → β) (l : List α) :
    l.filterMap (fun a => if p a then none else some (f a)) =
      (l.filter (fun a => !p a)).map f := by
  induction l with
  | nil => rfl
  | cons a l ih =>
    cases hp : p a
    · simp [List.filterMap_cons, List.filter_cons, hp, ih]
    · simp [List.filterMap_cons, List.filter_cons, hp, ih]

theorem metric_sheets_eq (results : List BenchmarkResult) :
    results.filterMap (fun r =>
      if r.metrics.isEmpty then none
      else some ((r.protocol ++ "_metrics").take 31, SheetContent.metricsSheet r.metrics)) =
    (results.filter (fun r => !r.metrics.isEmpty)).map
      (fun r => ((r.protocol ++ "_metrics").take 31, SheetContent.metricsSheet r.metrics)) :=
  filterMap_if_guard (fun r => r.metrics.isEmpty)
    (fun r => ((r.protocol ++ "_metrics").take 31, SheetContent.metricsSheet r.metrics)) results

theorem isEmpty_append_eq {α : Type} (l1 l2 : List α) :
    (l1 ++ l2).isEmpty = (l1.isEmpty && l2.isEmpty) := by
  cases l1 <;> rfl

theorem isEmpty_map_filter {α β : Type} (p : α → Bool) (f : α → β) (l : List α) :
    ((l.filter p).map f).isEmpty = !l.any p := by
  cases hany : l.any p
  · have hfil : l.filter p = [] := by
      rw [List.filter_eq_nil_iff]
      intro a ha
      have := List.any_eq_false.mp hany a ha
      simp [this]
    simp [hfil]
  · obtain ⟨x, hx, hpx⟩ := List.any_eq_true.mp hany
    have hmem : x ∈ l.filter p := List.mem_filter.mpr ⟨hx, hpx⟩
    cases hf : l.filter p with
    | nil =>
      rw [hf] at hmem
      cases hmem
    | cons y ys => simp [hf]

/-- C8 amended: the workbook contains one metrics sheet per run with a
NON-EMPTY metrics list (in order, named `{protocol}_metrics` truncated to 31
characters, holding that run's metrics), followed — exactly when some run
has stats — by a single `Summary` sheet holding one row per run with stats;
a run with zero metrics contributes no sheet, and when no run has metrics
and none has stats, no sheet is written at all and the save raises
(`IndexError: At least one sheet must be visible`) instead of producing an
empty-but-valid artifact. -/
theorem to_excel_sheet_structure (results : List BenchmarkResult) :
    (results.any (fun r => !r.metrics.isEmpty) = false ∧
        results.any (fun r => r.stats.isSome) = false →
      to_excel results true = Except.error "IndexError: At least one sheet must be visible")
    ∧ ((results.any (fun r => !r.metrics.isEmpty) = true ∨
        results.any (fun r => r.stats.isSome) = true) →
      to_excel results true = Except.ok (
        (results.filter (fun r => !r.metrics.isEmpty)).map
          (fun r => ((r.protocol ++ "_metrics").take 31, SheetContent.metricsSheet r.metrics)) ++
        (if results.any (fun r => r.stats.isSome) then
          [("Summary", SheetContent.summarySheet
            (results.filterMap (fun r => r.stats.map (fun s => summaryRowOf r s))))]
         else [])))
    ∧ (summarySheetRows ((to_excel results true).toOption.getD [])).length =
        (results.filter (fun r => r.stats.isSome)).length := by
  have hmain : to_excel_sheets results true =
      (results.filter (fun r => !r.metrics.isEmpty)).map
        (fun r => ((r.protocol ++ "_metrics").take 31, SheetContent.metricsSheet r.metrics)) ++
      (if results.any (fun r => r.stats.isSome) then
        [("Summary", SheetContent.summarySheet
          (results.filterMap (fun r => r.stats.map (fun s => summaryRowOf r s))))]
       else []) := by
    cases results with
    | nil => rfl
    | cons r rest =>
      have hx : to_excel_sheets (r :: rest) true =
          ((r :: rest).filterMap fun r2 =>
            if r2.metrics.isEmpty then none
            else some ((r2.protocol ++ "_metrics").take 31,
              SheetContent.metricsSheet r2.metrics)) ++
          (if ((r :: rest).filterMap
              (fun r2 => r2.stats.map (fun s => summaryRowOf r2 s))).isEmpty then []
           else [("Summary", SheetContent.summarySheet
             ((r :: rest).filterMap (fun r2 => r2.stats.map (fun s => summaryRowOf r2 s))))]) :=
        rfl
      rw [hx, metric_sheets_eq, summary_data_isEmpty]
      cases hany : (r :: rest).any (fun r => r.stats.isSome) <;> simp [hany]
  have hunf : to_excel results true =
      if (to_excel_sheets results true).isEmpty then
        Except.error "IndexError: At least one sheet must be visible"
      else Except.ok (to_excel_sheets results true) := rfl
  have hB : (if results.any (fun r => r.stats.isSome) then
      [("Summary", SheetContent.summarySheet
        (results.filterMap (fun r => r.stats.map (fun s => summaryRowOf r s))))]
      else []).isEmpty = !results.any (fun r => r.stats.isSome) := by
    cases hany : results.any (fun r => r.stats.isSome) <;> simp [hany]
  have hE : (to_excel_sheets results true).isEmpty =
      (!results.any (fun r => !r.metrics.isEmpty) && !results.any (fun r => r.stats.isSome)) := by
    rw [hmain, isEmpty_append_eq, isEmpty_map_filter, hB]
  have h2 : List.filterMap
      (fun r : BenchmarkResult =>
        (fun s : String × SheetContent =>
          match s.2 with
          | SheetContent.summarySheet rows => some rows
          | SheetContent.metricsSheet _ => none)
          ((r.protocol ++ "_metrics").take 31, SheetContent.metricsSheet r.metrics))
      (results.filter (fun r => !r.metrics.isEmpty)) = [] := by
    induction results.filter (fun r => !r.metrics.isEmpty) with
    | nil => rfl
    | cons r rest ih => simp [List.filterMap_cons, ih]
  have hsumm : (summarySheetRows (to_excel_sheets results true)).length =
      (results.filter (fun r => r.stats.isSome)).length := by
    rw [hmain]
    have h1 : summarySheetRows
        ((results.filter (fun r => !r.metrics.isEmpty)).map
          (fun r => ((r.protocol ++ "_metrics").take 31, SheetContent.metricsSheet r.metrics)) ++
        (if results.any (fun r => r.stats.isSome) then
          [("Summary", SheetContent.summarySheet
            (results.filterMap (fun r => r.stats.map (fun s => summaryRowOf r s))))]
         else [])) =
        (if results.any (fun r => r.stats.isSome) then
          results.filterMap (fun r => r.stats.map (fun s => summaryRowOf r s))
         else []) := by
      unfold summarySheetRows
      rw [List.filterMap_append, List.filterMap_map]
      rw [Function.comp_def]
      rw [h2]
      cases hany : results.any (fun r => r.stats.isSome) <;>
        simp [List.filterMap_cons]
    rw [h1]
    cases hany : results.any (fun r => r.stats.isSome) with
    | true => simp [filterMap_stats_length]
    | false =>
      have hnone : results.filter (fun r => r.stats.isSome) = [] := by
        rw [List.filter_eq_nil_iff]
        intro r hr
        have := List.any_eq_false.mp hany r hr
        simpa using this
      simp [hnone]
  refine ⟨?_, ?_, ?_⟩
  · rintro ⟨hm, hs⟩
    rw [hunf, hE, hm, hs]
    rfl
  · intro h
    have hfalse : (!results.any (fun r => !r.metrics.isEmpty) &&
        !results.any (fun r => r.stats.isSome)) = false := by
      rcases h with h | h <;> simp [h]
    rw [hunf, hE, hfalse]
    rw [hmain]
    rfl
  · cases hcase : (!results.any (fun r => !r.metrics.isEmpty) &&
        !results.any (fun r => r.stats.isSome)) with
    | false =>
      have hok : to_excel results true = Except.ok (to_excel_sheets results true) := by
        rw [hunf, hE, hcase]
        rfl
      rw [hok]
      exact hsumm
    | true =>
      have herr : to_excel results true =
          Except.error "IndexError: At least one sheet must be visible" := by
        rw [hunf, hE, hcase]
        rfl
      have hstats : results.any (fun r => r.stats.isSome) = false := by
        have hc2 := hcase
        rw [Bool.and_eq_true] at hc2
        rcases hc2 with ⟨_, hs⟩
        simpa using hs
      have hfil : results.filter (fun r => r.stats.isSome) = [] := by
        rw [List.filter_eq_nil_iff]
        intro r hr
        have := List.any_eq_false.mp hstats r hr
        simpa using this
      rw [herr, hfil]
      rfl

/-- A benchmark run with one metric and computed-looking stats, used to
exercise the successful branch of the exporter. -/
def sheetRun : BenchmarkResult :=
  ⟨none, "rest_20240101_000000", "REST", now0,
    [⟨0, "2024-01-01T00:00:00", "2024-01-01T00:00:01", 1⟩],
    some ⟨1, 1, 0, 1, 1, 1, some 1, some 1, some 1⟩, []⟩

/-- Witness for the amended C8 at a concrete one-run batch with metrics and
stats: the export succeeds with the run's metrics sheet and the Summary
sheet. -/
theorem to_excel_sheet_structure_witness :
    ([sheetRun].any (fun r => !r.metrics.isEmpty) = true ∨
      [sheetRun].any (fun r => r.stats.isSome) = true) ∧
    to_excel [sheetRun] true = Except.ok (
      ([sheetRun].filter (fun r => !r.metrics.isEmpty)).map
        (fun r => ((r.protocol ++ "_metrics").take 31, SheetContent.metricsSheet r.metrics)) ++
      (if [sheetRun].any (fun r => r.stats.isSome) then
        [("Summary", SheetContent.summarySheet
          ([sheetRun].filterMap (fun r => r.stats.map (fun s => summaryRowOf r s))))]
       else [])) :=
  ⟨Or.inl (by decide),
    (to_excel_sheet_structure [sheetRun]).2.1 (Or.inl (by decide))⟩
